import Mathlib

set_option maxRecDepth 100000

/-!
# Verification of the pricing engine of `ebay-resale-analyzer`

Shallow embedding of `src/services/priceCalculator.js` over exact rationals.
JavaScript numbers are modelled by `ℚ` (decimal literals such as `0.7` are the
exact rationals the source text denotes), `Math.round` by `jsRound`
(round half toward positive infinity), fields that a code path may omit from
the returned object by `Option`, and `Math.sqrt` (used only for the standard
deviation) by `Real.sqrt`.
-/

/-- JavaScript `Math.round`: rounds half toward positive infinity.
Defined via the executable `Rat.floor`. -/
def jsRound (q : ℚ) : ℤ := (q + 1/2).floor

theorem jsRound_eq (q : ℚ) : jsRound q = ⌊q + 1/2⌋ := by
  rw [jsRound, Rat.floor_def', Rat.floor_def]

/-- `Math.round(x * 100) / 100`: round to 2 decimal places. -/
def round2 (q : ℚ) : ℚ := (jsRound (q * 100) : ℚ) / 100

/-- `roundToNearestSensible` (src/services/priceCalculator.js, lines 120-132):
rounds a price to a psychologically sensible price point, banded by magnitude. -/
def roundToNearestSensible (price : ℚ) : ℚ :=
  if price < 10 then
    (jsRound (price * 2) : ℚ) / 2        -- Round to nearest 0.50
  else if price < 50 then
    (jsRound price : ℚ)                  -- Round to nearest dollar
  else if price < 100 then
    (jsRound (price / 5) : ℚ) * 5        -- Round to nearest 5
  else if price < 500 then
    (jsRound (price / 10) : ℚ) * 10      -- Round to nearest 10
  else
    (jsRound (price / 25) : ℚ) * 25      -- Round to nearest 25

/-- Confidence levels of a price recommendation. -/
inductive Confidence where
  | low
  | medium
  | high
  deriving DecidableEq, Repr

/-- Input of `calculateSuggestedPrice` (the fields the function destructures;
`priceRange` is destructured but never used). -/
structure MarketSnapshot where
  soldCount : ℚ
  activeCount : ℚ
  avgSoldPrice : ℚ
  avgActivePrice : ℚ
  priceRange : ℚ × ℚ
  dataSource : String
  deriving DecidableEq, Repr

/-- The `priceBreakdown` sub-object built on the pricing path. -/
structure PriceBreakdown where
  avgSoldContribution : ℚ
  avgActiveContribution : ℚ
  marketAdjustment : ℚ
  competitionRatio : ℚ
  deriving DecidableEq, Repr

/-- Output of `calculateSuggestedPrice`.  The insufficient-data return object
has no `priceBreakdown` property, hence the `Option`. -/
structure PriceRecommendation where
  suggestedPrice : Option ℚ
  quickSalePrice : Option ℚ
  premiumPrice : Option ℚ
  confidence : Confidence
  methodology : List String
  outlierCount : ℕ
  priceBreakdown : Option PriceBreakdown
  deriving DecidableEq, Repr

/-- `const competitionRatio = activeCount > 0 ? soldCount / activeCount : 1`
(src/services/priceCalculator.js, line 42). -/
def competitionRatio (ebayData : MarketSnapshot) : ℚ :=
  if ebayData.activeCount > 0 then ebayData.soldCount / ebayData.activeCount else 1

/-- The market-adjustment factor (src/services/priceCalculator.js, lines
43-53): 0.92 under high competition, 1.05 under strong demand, else 1.0. -/
def marketAdjustment (ebayData : MarketSnapshot) : ℚ :=
  if competitionRatio ebayData < 0.3 then 0.92
  else if competitionRatio ebayData > 2 then 1.05
  else 1.0

/-- The methodology entry pushed in the same branch that picks the
market-adjustment factor. -/
def adjustmentMethodology (ebayData : MarketSnapshot) : List String :=
  if competitionRatio ebayData < 0.3 then ["Adjusted down 8% due to high competition"]
  else if competitionRatio ebayData > 2 then ["Adjusted up 5% due to strong demand"]
  else []

/-- Confidence grading (src/services/priceCalculator.js, lines 62-68): start at
`medium`, upgrade to `high`, else possibly downgrade to `low`. -/
def confidenceGrade (ebayData : MarketSnapshot) : Confidence :=
  if ebayData.soldCount ≥ 20 ∧ ebayData.dataSource = "exact" then Confidence.high
  else if ebayData.soldCount < 5 ∨ ebayData.dataSource = "category" then Confidence.low
  else Confidence.medium

/-- The tail of `calculateSuggestedPrice` after a base price was selected
(src/services/priceCalculator.js, lines 41-84): market adjustment, the three
rounded price points, confidence grading and the price breakdown. -/
def pricingPath (ebayData : MarketSnapshot) (basePrice : ℚ)
    (methodology : List String) : PriceRecommendation :=
  let adjustedPrice := basePrice * marketAdjustment ebayData
  { suggestedPrice := some (roundToNearestSensible adjustedPrice)
    quickSalePrice := some (roundToNearestSensible (adjustedPrice * 0.85))
    premiumPrice := some (roundToNearestSensible (adjustedPrice * 1.15))
    confidence := confidenceGrade ebayData
    methodology := methodology ++ adjustmentMethodology ebayData
    outlierCount := 0  -- Would be calculated with full price data
    priceBreakdown := some
      { avgSoldContribution := round2 (ebayData.avgSoldPrice * 0.7)
        avgActiveContribution := round2 (ebayData.avgActivePrice * 0.3)
        marketAdjustment := marketAdjustment ebayData
        competitionRatio := round2 (competitionRatio ebayData) } }

/-- `calculateSuggestedPrice` (src/services/priceCalculator.js, lines 11-84):
base-price selection over the three guarded branches, with the insufficient-data
early return, then the common pricing tail `pricingPath`. -/
def calculateSuggestedPrice (ebayData : MarketSnapshot) : PriceRecommendation :=
  if ebayData.avgSoldPrice > 0 ∧ ebayData.avgActivePrice > 0 then
    pricingPath ebayData (ebayData.avgSoldPrice * 0.7 + ebayData.avgActivePrice * 0.3)
      ["Weighted average: 70% sold listings, 30% active listings"]
  else if ebayData.avgSoldPrice > 0 then
    pricingPath ebayData ebayData.avgSoldPrice ["Based on sold listings only"]
  else if ebayData.avgActivePrice > 0 then
    pricingPath ebayData (ebayData.avgActivePrice * 0.9)  -- Discount active prices by 10%
      ["Based on active listings (discounted 10%)"]
  else
    { suggestedPrice := none
      quickSalePrice := none
      premiumPrice := none
      confidence := Confidence.low
      methodology := ["Insufficient data for price calculation"]
      outlierCount := 0
      priceBreakdown := none }

/-- `[...prices].sort((a, b) => a - b)`: a stable ascending sort, modelled by
insertion sort. -/
def sortAsc (prices : List ℚ) : List ℚ := List.insertionSort (· ≤ ·) prices

/-- Result object of `removeOutliers`. -/
structure RemoveOutliersResult where
  filtered : List ℚ
  outlierCount : ℕ
  deriving DecidableEq, Repr

/-- `removeOutliers` (src/services/priceCalculator.js, lines 91-113): IQR-based
outlier filtering.  `Math.floor(n * 0.25)` and `Math.floor(n * 0.75)` are the
natural-number divisions `n / 4` and `n * 3 / 4` (the float products are exact). -/
def removeOutliers (prices : List ℚ) : RemoveOutliersResult :=
  if prices.length < 4 then
    { filtered := prices, outlierCount := 0 }
  else
    let sorted := sortAsc prices
    let q1Index := sorted.length / 4
    let q3Index := sorted.length * 3 / 4
    let q1 := sorted.getD q1Index 0
    let q3 := sorted.getD q3Index 0
    let iqr := q3 - q1
    let lowerBound := q1 - iqr * 1.5
    let upperBound := q3 + iqr * 1.5
    let filtered := prices.filter (fun p => lowerBound ≤ p ∧ p ≤ upperBound)
    { filtered := filtered, outlierCount := prices.length - filtered.length }

/-- One step of key collection: append a key unless already present. -/
def insertKey (acc : List ℤ) (v : ℤ) : List ℤ :=
  if v ∈ acc then acc else acc ++ [v]

/-- Distinct values of a list in first-occurrence order: the insertion order of
the keys of the `frequency` object built by
`roundedPrices.forEach(p => frequency[p] = (frequency[p] || 0) + 1)`. -/
def firstSeen (l : List ℤ) : List ℤ :=
  l.foldl insertKey []

/-- Whether an integer, used as a JavaScript object key, is an array-index key
(`0 ≤ v ≤ 2^32 - 2`).  `Object.entries` lists array-index keys first, in
ascending numeric order; all other keys follow in insertion order. -/
def isArrayIndexKey (v : ℤ) : Prop := 0 ≤ v ∧ v < 4294967295

instance : DecidablePred isArrayIndexKey := fun v =>
  inferInstanceAs (Decidable (0 ≤ v ∧ v < 4294967295))

/-- Key order of `Object.entries(frequency)` for the integer-keyed `frequency`
object: array-index keys ascending, then the remaining keys in insertion
order. -/
def jsObjectKeys (rounded : List ℤ) : List ℤ :=
  let distinct := firstSeen rounded
  List.insertionSort (· ≤ ·) (distinct.filter (fun v => decide (isArrayIndexKey v)))
    ++ distinct.filter (fun v => ! decide (isArrayIndexKey v))

/-- The `[key, count]` pairs of `Object.entries(frequency)`, in JavaScript
enumeration order. -/
def modeEntries (prices : List ℚ) : List (ℤ × ℕ) :=
  let rounded := prices.map jsRound
  (jsObjectKeys rounded).map (fun v => (v, rounded.count v))

/-- Comparison used by `.sort((a, b) => b[1] - a[1])`: descending by count.
`Array.prototype.sort` is stable (ES2019), as is insertion sort with this
relation, which keeps the earlier entry in front of later entries of equal
count. -/
def byCountDesc (a b : ℤ × ℕ) : Prop := b.2 ≤ a.2

instance : DecidableRel byCountDesc := fun a b =>
  inferInstanceAs (Decidable (b.2 ≤ a.2))

/-- The mode block of `analyzePriceDistribution`
(src/services/priceCalculator.js, lines 152-159):
`Object.entries(frequency).sort((a, b) => b[1] - a[1])[0]?.[0] || 0`, with
`parseFloat` mapping the decimal-integer key string back to its value. -/
def jsMode (prices : List ℚ) : ℚ :=
  match (List.insertionSort byCountDesc (modeEntries prices)).head? with
  | some e => (e.1 : ℚ)
  | none => 0

/-- The first entry of maximal count in a list of `[key, count]` pairs — the
head that a stable descending-by-count sort produces. -/
def firstMax : List (ℤ × ℕ) → Option (ℤ × ℕ)
  | [] => none
  | a :: t =>
    match firstMax t with
    | none => some a
    | some b => if b.2 ≤ a.2 then some a else some b

/-- Output of `analyzePriceDistribution`.  The empty-input return object
`{ median: 0, mode: 0, stdDev: 0 }` has no `mean` property, hence the
`Option`. -/
structure DistStats where
  median : ℚ
  mode : ℚ
  stdDev : ℝ
  mean : Option ℚ

/-- `Math.round(x * 100) / 100` over the reals (for the standard deviation). -/
noncomputable def round2R (x : ℝ) : ℝ := (⌊x * 100 + 1/2⌋ : ℝ) / 100

/-- `analyzePriceDistribution` (src/services/priceCalculator.js, lines 139-171):
median, rounded-price mode, population standard deviation and mean.
`Math.sqrt` forces the standard deviation into `ℝ`; every other field is exact
rational arithmetic. -/
noncomputable def analyzePriceDistribution (prices : List ℚ) : DistStats :=
  if prices.length = 0 then
    { median := 0, mode := 0, stdDev := 0, mean := none }
  else
    let sorted := sortAsc prices
    let mid := sorted.length / 2
    let median : ℚ :=
      if sorted.length % 2 = 0 then (sorted.getD (mid - 1) 0 + sorted.getD mid 0) / 2
      else sorted.getD mid 0
    let mode := jsMode prices
    let mean : ℚ := prices.sum / (prices.length : ℚ)
    let avgSquaredDiff : ℚ := (prices.map (fun p => (p - mean) ^ 2)).sum / (prices.length : ℚ)
    let stdDev := Real.sqrt (avgSquaredDiff : ℝ)
    { median := round2 median
      mode := mode
      stdDev := round2R stdDev
      mean := some (round2 mean) }

/-! ## Shared helper lemmas -/

/-- On the pricing path, `calculateSuggestedPrice` is `pricingPath` applied to
a positive base price. -/
theorem calc_pricing_eq (s : MarketSnapshot)
    (h : s.avgSoldPrice > 0 ∨ s.avgActivePrice > 0) :
    ∃ basePrice m, 0 < basePrice ∧
      calculateSuggestedPrice s = pricingPath s basePrice m := by
  by_cases h1 : s.avgSoldPrice > 0 ∧ s.avgActivePrice > 0
  · exact ⟨s.avgSoldPrice * 0.7 + s.avgActivePrice * 0.3,
      ["Weighted average: 70% sold listings, 30% active listings"],
      by nlinarith [h1.1, h1.2], by rw [calculateSuggestedPrice, if_pos h1]⟩
  · by_cases h2 : s.avgSoldPrice > 0
    · exact ⟨s.avgSoldPrice, ["Based on sold listings only"], h2,
        by rw [calculateSuggestedPrice, if_neg h1, if_pos h2]⟩
    · have h3 : s.avgActivePrice > 0 := h.resolve_left h2
      exact ⟨s.avgActivePrice * 0.9, ["Based on active listings (discounted 10%)"],
        by nlinarith, by rw [calculateSuggestedPrice, if_neg h1, if_neg h2, if_pos h3]⟩

/-- In the terminal case, `calculateSuggestedPrice` returns the
insufficient-data record. -/
theorem calc_terminal_eq (s : MarketSnapshot)
    (h1 : ¬ s.avgSoldPrice > 0) (h2 : ¬ s.avgActivePrice > 0) :
    calculateSuggestedPrice s =
      { suggestedPrice := none, quickSalePrice := none, premiumPrice := none,
        confidence := Confidence.low,
        methodology := ["Insufficient data for price calculation"],
        outlierCount := 0, priceBreakdown := none } := by
  rw [calculateSuggestedPrice, if_neg (fun hc => h1 hc.1), if_neg h1, if_neg h2]

/-- The market-adjustment factor is one of 0.92, 1.05 and 1.0, hence
positive. -/
theorem marketAdjustment_pos (s : MarketSnapshot) : 0 < marketAdjustment s := by
  rw [marketAdjustment]
  split_ifs <;> norm_num

/-! ## C1 -/

/-- **C1, counterexample**: in the insufficient-data terminal case the
methodology string starts with a capital `I`, so the record is not equal to
the one the claim states (`["insufficient data for price calculation"]`). -/
theorem c1_counterexample :
    (calculateSuggestedPrice ⟨0, 0, 0, 0, (0, 0), "estimated"⟩).methodology
      = ["Insufficient data for price calculation"] ∧
    (calculateSuggestedPrice ⟨0, 0, 0, 0, (0, 0), "estimated"⟩).methodology
      ≠ ["insufficient data for price calculation"] := by
  with_unfolding_all decide

/-- **C1 (amended)**: for every snapshot with `avgSoldPrice = 0` and
`avgActivePrice = 0`, `calculateSuggestedPrice` returns all three prices null,
confidence low, methodology `["Insufficient data for price calculation"]`
(capital `I`, as written in the source) and outlier count 0; and for every
snapshot, a null `suggestedPrice` forces null `quickSalePrice` and
`premiumPrice` and confidence low. -/
theorem c1_insufficient_data :
    (∀ s : MarketSnapshot, s.avgSoldPrice = 0 → s.avgActivePrice = 0 →
      calculateSuggestedPrice s =
        { suggestedPrice := none, quickSalePrice := none, premiumPrice := none,
          confidence := Confidence.low,
          methodology := ["Insufficient data for price calculation"],
          outlierCount := 0, priceBreakdown := none }) ∧
    (∀ s : MarketSnapshot, (calculateSuggestedPrice s).suggestedPrice = none →
      (calculateSuggestedPrice s).quickSalePrice = none ∧
      (calculateSuggestedPrice s).premiumPrice = none ∧
      (calculateSuggestedPrice s).confidence = Confidence.low) := by
  constructor
  · intro s h1 h2
    exact calc_terminal_eq s (by rw [h1]; exact lt_irrefl 0) (by rw [h2]; exact lt_irrefl 0)
  · intro s h
    by_cases hp : s.avgSoldPrice > 0 ∨ s.avgActivePrice > 0
    · obtain ⟨b, m, _, he⟩ := calc_pricing_eq s hp
      rw [he] at h
      exact absurd h (by simp [pricingPath])
    · rw [calc_terminal_eq s (fun hgt => hp (Or.inl hgt)) (fun hgt => hp (Or.inr hgt))]
      exact ⟨rfl, rfl, rfl⟩

/-- **C1 witness**: both parts of the amended claim evaluated on concrete
snapshots. -/
theorem c1_insufficient_data_witness :
    calculateSuggestedPrice ⟨0, 0, 0, 0, (0, 0), "estimated"⟩ =
      { suggestedPrice := none, quickSalePrice := none, premiumPrice := none,
        confidence := Confidence.low,
        methodology := ["Insufficient data for price calculation"],
        outlierCount := 0, priceBreakdown := none } ∧
    ((calculateSuggestedPrice ⟨0, 0, 0, 0, (0, 0), "estimated"⟩).quickSalePrice = none ∧
     (calculateSuggestedPrice ⟨0, 0, 0, 0, (0, 0), "estimated"⟩).premiumPrice = none ∧
     (calculateSuggestedPrice ⟨0, 0, 0, 0, (0, 0), "estimated"⟩).confidence = Confidence.low) :=
  ⟨c1_insufficient_data.1 ⟨0, 0, 0, 0, (0, 0), "estimated"⟩ rfl rfl,
   c1_insufficient_data.2 ⟨0, 0, 0, 0, (0, 0), "estimated"⟩ (by with_unfolding_all decide)⟩

/-! ## C2 -/

/-- **C2, counterexample**: on a pricing-path snapshot with `soldCount = 20`
and `dataSource = "exact-match"` the claim demands confidence `high`, but the
code compares `dataSource` with the tag `"exact"` and returns `medium`. -/
theorem c2_counterexample :
    (20 : ℚ) ≥ 20 ∧ (100 : ℚ) > 0 ∧
    (calculateSuggestedPrice ⟨20, 1, 100, 0, (0, 0), "exact-match"⟩).suggestedPrice ≠ none ∧
    (calculateSuggestedPrice ⟨20, 1, 100, 0, (0, 0), "exact-match"⟩).confidence
      ≠ Confidence.high ∧
    (calculateSuggestedPrice ⟨20, 1, 100, 0, (0, 0), "exact-match"⟩).confidence
      = Confidence.medium := by
  with_unfolding_all decide

/-- **C2 (amended)**: on the pricing path, confidence is `high` iff
`soldCount ≥ 20` and `dataSource = "exact"` (the code's top-tier tag);
otherwise it is `low` iff `soldCount < 5` or `dataSource = "category"` (the
code's bottom-tier tag); otherwise `medium`, the `high` check evaluated
first. -/
theorem c2_confidence_grading (s : MarketSnapshot)
    (h : s.avgSoldPrice > 0 ∨ s.avgActivePrice > 0) :
    ((calculateSuggestedPrice s).confidence = Confidence.high ↔
      (s.soldCount ≥ 20 ∧ s.dataSource = "exact")) ∧
    (¬(s.soldCount ≥ 20 ∧ s.dataSource = "exact") →
      ((calculateSuggestedPrice s).confidence = Confidence.low ↔
        (s.soldCount < 5 ∨ s.dataSource = "category"))) ∧
    (¬(s.soldCount ≥ 20 ∧ s.dataSource = "exact") →
      ¬(s.soldCount < 5 ∨ s.dataSource = "category") →
      (calculateSuggestedPrice s).confidence = Confidence.medium) := by
  obtain ⟨b, m, _, he⟩ := calc_pricing_eq s h
  have hc : (calculateSuggestedPrice s).confidence = confidenceGrade s := by
    rw [he]; rfl
  rw [hc, confidenceGrade]
  split_ifs with hh hl <;> simp_all

/-- **C2 witness**: the amended grading evaluated on a concrete pricing-path
snapshot with `soldCount = 20` and `dataSource = "exact"`. -/
theorem c2_confidence_grading_witness :
    ((100 : ℚ) > 0 ∨ (0 : ℚ) > 0) ∧
    ((calculateSuggestedPrice ⟨20, 1, 100, 0, (0, 0), "exact"⟩).confidence = Confidence.high ↔
      ((20 : ℚ) ≥ 20 ∧ "exact" = "exact")) :=
  ⟨Or.inl (by norm_num),
   (c2_confidence_grading ⟨20, 1, 100, 0, (0, 0), "exact"⟩ (Or.inl (by norm_num))).1⟩

/-! ## C3 -/

set_option maxRecDepth 4000 in
/-- **C3**: on the snapshot `{avgSoldPrice: 100, avgActivePrice: 80,
soldCount: 10, activeCount: 40, dataSource: "exact-match"}` the engine computes
competition ratio 0.25 (< 0.3, so the 0.92 factor applies), base
0.7·100 + 0.3·80 = 94, adjusted 86.48, and returns suggested price 85, quick
sale price 75, premium price 100 and confidence `medium`. -/
theorem c3_example_snapshot :
    competitionRatio ⟨10, 40, 100, 80, (0, 0), "exact-match"⟩ = 0.25 ∧
    (0.25 : ℚ) < 0.3 ∧
    marketAdjustment ⟨10, 40, 100, 80, (0, 0), "exact-match"⟩ = 0.92 ∧
    (100 : ℚ) * 0.7 + 80 * 0.3 = 94 ∧
    (94 : ℚ) * 0.92 = 86.48 ∧
    (calculateSuggestedPrice ⟨10, 40, 100, 80, (0, 0), "exact-match"⟩).suggestedPrice
      = some 85 ∧
    (calculateSuggestedPrice ⟨10, 40, 100, 80, (0, 0), "exact-match"⟩).quickSalePrice
      = some 75 ∧
    (calculateSuggestedPrice ⟨10, 40, 100, 80, (0, 0), "exact-match"⟩).premiumPrice
      = some 100 ∧
    (calculateSuggestedPrice ⟨10, 40, 100, 80, (0, 0), "exact-match"⟩).confidence
      = Confidence.medium := by
  with_unfolding_all decide

/-! ## C8 -/

/-- **C8, counterexample**: on the empty sequence the returned record has no
`mean` property at all (the code's empty-input return object is
`{ median: 0, mode: 0, stdDev: 0 }`), so `mean` is not present with value 0. -/
theorem c8_counterexample :
    (analyzePriceDistribution []).mean = none ∧ (none : Option ℚ) ≠ some 0 :=
  ⟨rfl, by simp⟩

/-- **C8 (amended)**: on the empty sequence, `analyzePriceDistribution`
returns median, mode and stdDev all 0 and omits the `mean` field. -/
theorem c8_empty_distribution :
    analyzePriceDistribution [] =
      { median := 0, mode := 0, stdDev := 0, mean := none } :=
  rfl

/-! ## C5 and C6 -/

/-- `Math.floor(n * 0.25)` is natural division by 4. -/
theorem floor_mul_quarter (n : ℕ) : (⌊(n : ℚ) * 0.25⌋).toNat = n / 4 := by
  have h1 : (n : ℚ) * 0.25 = ((n : ℤ) : ℚ) / ((4 : ℕ) : ℚ) := by push_cast; ring
  rw [h1, Rat.floor_intCast_div_natCast]
  omega

/-- `Math.floor(n * 0.75)` is `n * 3 / 4` in natural division. -/
theorem floor_mul_three_quarters (n : ℕ) : (⌊(n : ℚ) * 0.75⌋).toNat = n * 3 / 4 := by
  have h1 : (n : ℚ) * 0.75 = ((↑(n * 3) : ℤ) : ℚ) / ((4 : ℕ) : ℚ) := by push_cast; ring
  rw [h1, Rat.floor_intCast_div_natCast]
  omega

/-- Beyond the short-input branch, the kept list is a filtering of the input
and the outlier count is the length difference. -/
theorem removeOutliers_filter_shape (ps : List ℚ) (h : ¬ ps.length < 4) :
    ∃ p : ℚ → Bool, (removeOutliers ps).filtered = ps.filter p ∧
      (removeOutliers ps).outlierCount = ps.length - (ps.filter p).length := by
  rw [removeOutliers, if_neg h]
  exact ⟨_, rfl, rfl⟩

/-- A first application of `removeOutliers` that reports no outliers left the
list unchanged. -/
theorem removeOutliers_count_zero {ps : List ℚ}
    (h : (removeOutliers ps).outlierCount = 0) : (removeOutliers ps).filtered = ps := by
  by_cases hlen : ps.length < 4
  · rw [removeOutliers, if_pos hlen]
  · obtain ⟨p, hfil, hcnt⟩ := removeOutliers_filter_shape ps hlen
    rw [hfil]
    have hle := List.length_filter_le p ps
    have hge : ps.length ≤ (ps.filter p).length := by omega
    exact List.filter_eq_self.mpr
      (List.filter_length_eq_length.mp (le_antisymm hle hge))

/-- **C5**: `removeOutliers` returns short inputs unchanged with outlier count
0; on inputs of length ≥ 4 it keeps, in original order, exactly the elements
within the inclusive IQR bounds built from the positional quartiles
`sorted[floor(n*0.25)]` and `sorted[floor(n*0.75)]`, reporting the length
difference; and `removeOutliers([1,2,3,4,100])` keeps `[1,2,3,4]` with outlier
count 1. -/
theorem c5_removeOutliers :
    (∀ ps : List ℚ, ps.length < 4 → removeOutliers ps = ⟨ps, 0⟩) ∧
    (∀ ps : List ℚ, 4 ≤ ps.length →
      let sorted := sortAsc ps
      let q1 := sorted.getD (⌊(ps.length : ℚ) * 0.25⌋).toNat 0
      let q3 := sorted.getD (⌊(ps.length : ℚ) * 0.75⌋).toNat 0
      let lowerBound := q1 - 1.5 * (q3 - q1)
      let upperBound := q3 + 1.5 * (q3 - q1)
      (removeOutliers ps).filtered = ps.filter (fun p => lowerBound ≤ p ∧ p ≤ upperBound) ∧
      (removeOutliers ps).outlierCount
        = ps.length - (removeOutliers ps).filtered.length) ∧
    removeOutliers [1, 2, 3, 4, 100] = ⟨[1, 2, 3, 4], 1⟩ := by
  refine ⟨fun ps h => by rw [removeOutliers, if_pos h], fun ps h => ?_,
    by with_unfolding_all decide⟩
  have hlen : (sortAsc ps).length = ps.length := (List.perm_insertionSort _ ps).length_eq
  have hq1 : (⌊(ps.length : ℚ) * 0.25⌋).toNat = (sortAsc ps).length / 4 := by
    rw [hlen, floor_mul_quarter]
  have hq3 : (⌊(ps.length : ℚ) * 0.75⌋).toNat = (sortAsc ps).length * 3 / 4 := by
    rw [hlen, floor_mul_three_quarters]
  simp only [removeOutliers, if_neg (not_lt.mpr h), hq1, hq3]
  constructor
  · refine List.filter_congr fun p _ => ?_
    simp only [decide_eq_decide]
    constructor <;> (intro hc; exact ⟨by linarith [hc.1], by linarith [hc.2]⟩)
  · trivial

/-- **C5 witness**: both universally quantified parts applied at concrete
inputs. -/
theorem c5_removeOutliers_witness :
    (([5, 6] : List ℚ).length < 4 ∧ removeOutliers [5, 6] = ⟨[5, 6], 0⟩) ∧
    (4 ≤ ([1, 2, 3, 4, 100] : List ℚ).length ∧
      (removeOutliers [1, 2, 3, 4, 100]).outlierCount
        = ([1, 2, 3, 4, 100] : List ℚ).length
          - (removeOutliers [1, 2, 3, 4, 100]).filtered.length) :=
  ⟨⟨by decide, c5_removeOutliers.1 [5, 6] (by decide)⟩,
   ⟨by decide, (c5_removeOutliers.2.1 [1, 2, 3, 4, 100] (by decide)).2⟩⟩

/-- **C6, counterexample**: on `[0,0,4,4,4,4,11,100]` the first application
removes only 100, but the second application, with quartiles recomputed on the
filtered list, also removes 11 — the claimed stability fails. -/
theorem c6_counterexample :
    (removeOutliers [0, 0, 4, 4, 4, 4, 11, 100]).filtered = [0, 0, 4, 4, 4, 4, 11] ∧
    (removeOutliers ((removeOutliers [0, 0, 4, 4, 4, 4, 11, 100]).filtered)).outlierCount
      = 1 ∧
    (removeOutliers ((removeOutliers [0, 0, 4, 4, 4, 4, 11, 100]).filtered)).filtered
      ≠ (removeOutliers [0, 0, 4, 4, 4, 4, 11, 100]).filtered := by
  with_unfolding_all decide

/-- **C6 (amended)**: whenever the first application of `removeOutliers`
removes nothing (outlier count 0), a second application of `removeOutliers` to
the filtered result removes nothing further; in general a second application
may remove more elements, since the quartile bounds are recomputed on the
filtered list. -/
theorem c6_stability_when_no_outliers (ps : List ℚ)
    (h : (removeOutliers ps).outlierCount = 0) :
    (removeOutliers ((removeOutliers ps).filtered)).filtered
      = (removeOutliers ps).filtered ∧
    (removeOutliers ((removeOutliers ps).filtered)).outlierCount = 0 := by
  have hfe : (removeOutliers ps).filtered = ps := removeOutliers_count_zero h
  rw [hfe]
  exact ⟨removeOutliers_count_zero h, h⟩

/-- **C6 witness**: the amended stability applied at `[1, 2, 3, 4]`, where the
first application removes nothing. -/
theorem c6_stability_witness :
    (removeOutliers [1, 2, 3, 4]).outlierCount = 0 ∧
    (removeOutliers ((removeOutliers [1, 2, 3, 4]).filtered)).filtered
      = (removeOutliers [1, 2, 3, 4]).filtered ∧
    (removeOutliers ((removeOutliers [1, 2, 3, 4]).filtered)).outlierCount = 0 :=
  ⟨by with_unfolding_all decide,
   c6_stability_when_no_outliers [1, 2, 3, 4] (by with_unfolding_all decide)⟩

/-! ## C7 -/

theorem le_jsRound {z : ℤ} {q : ℚ} (h : (z : ℚ) ≤ q + 1/2) : z ≤ jsRound q := by
  rw [jsRound_eq]
  exact Int.le_floor.mpr h

theorem jsRound_lt {z : ℤ} {q : ℚ} (h : q + 1/2 < (z : ℚ)) : jsRound q < z := by
  rw [jsRound_eq]
  exact Int.floor_lt.mpr h

/-- `Math.round` fixes integers. -/
theorem jsRound_intCast (k : ℤ) : jsRound (k : ℚ) = k := by
  have h0 : ⌊(1/2 : ℚ)⌋ = 0 := by
    rw [Int.floor_eq_zero_iff]
    constructor <;> norm_num
  rw [jsRound_eq, Int.floor_int_add, h0, add_zero]

theorem roundToNearestSensible_ten : roundToNearestSensible 10 = 10 := by
  with_unfolding_all decide

theorem roundToNearestSensible_fifty : roundToNearestSensible 50 = 50 := by
  with_unfolding_all decide

theorem roundToNearestSensible_hundred : roundToNearestSensible 100 = 100 := by
  with_unfolding_all decide

theorem roundToNearestSensible_fivehundred : roundToNearestSensible 500 = 500 := by
  with_unfolding_all decide

/-- **C7**: `roundToNearestSensible` is idempotent on every non-negative
rational, including at the band boundaries 9.99 → 10, 49.99 → 50, 99.99 → 100
and 499.99 → 500, where the rounded value crosses into the next band. -/
theorem c7_roundToNearestSensible_idempotent :
    (∀ x : ℚ, 0 ≤ x →
      roundToNearestSensible (roundToNearestSensible x) = roundToNearestSensible x) ∧
    roundToNearestSensible 9.99 = 10 ∧
    roundToNearestSensible (roundToNearestSensible 9.99) = roundToNearestSensible 9.99 ∧
    roundToNearestSensible 49.99 = 50 ∧
    roundToNearestSensible (roundToNearestSensible 49.99) = roundToNearestSensible 49.99 ∧
    roundToNearestSensible 99.99 = 100 ∧
    roundToNearestSensible (roundToNearestSensible 99.99) = roundToNearestSensible 99.99 ∧
    roundToNearestSensible 499.99 = 500 ∧
    roundToNearestSensible (roundToNearestSensible 499.99) = roundToNearestSensible 499.99 := by
  refine ⟨?_, by with_unfolding_all decide, by with_unfolding_all decide,
    by with_unfolding_all decide, by with_unfolding_all decide,
    by with_unfolding_all decide, by with_unfolding_all decide,
    by with_unfolding_all decide, by with_unfolding_all decide⟩
  intro x hx
  by_cases h1 : x < 10
  · -- Band < 10: the output is k/2 with 0 ≤ k ≤ 20.
    have hf : roundToNearestSensible x = (jsRound (x * 2) : ℚ) / 2 := by
      rw [roundToNearestSensible, if_pos h1]
    set k := jsRound (x * 2) with hk
    have hk0 : (0 : ℤ) ≤ k := le_jsRound (by push_cast; linarith)
    have hk20 : k ≤ 20 := by
      have := jsRound_lt (show x * 2 + 1/2 < ((21 : ℤ) : ℚ) by push_cast; linarith)
      omega
    rw [hf]
    by_cases hk' : k < 20
    · have hck : (k : ℚ) < 20 := by exact_mod_cast hk'
      have hlt : (k : ℚ) / 2 < 10 := by linarith
      rw [roundToNearestSensible, if_pos hlt,
        show (k : ℚ) / 2 * 2 = (k : ℚ) by ring, jsRound_intCast]
    · have hk20' : k = 20 := by omega
      rw [hk20', show ((20 : ℤ) : ℚ) / 2 = 10 by norm_num, roundToNearestSensible_ten]
  · by_cases h2 : x < 50
    · -- Band [10, 50): the output is the integer k with 10 ≤ k ≤ 50.
      have hf : roundToNearestSensible x = (jsRound x : ℚ) := by
        rw [roundToNearestSensible, if_neg h1, if_pos h2]
      set k := jsRound x with hk
      have hk10 : (10 : ℤ) ≤ k := le_jsRound (by push_cast; linarith [not_lt.mp h1])
      have hk50 : k ≤ 50 := by
        have := jsRound_lt (show x + 1/2 < ((51 : ℤ) : ℚ) by push_cast; linarith)
        omega
      rw [hf]
      by_cases hk' : k < 50
      · have hc10 : (10 : ℚ) ≤ (k : ℚ) := by exact_mod_cast hk10
        have hc50 : (k : ℚ) < 50 := by exact_mod_cast hk'
        rw [roundToNearestSensible, if_neg (not_lt.mpr hc10), if_pos hc50, jsRound_intCast]
      · have hk50' : k = 50 := by omega
        rw [hk50', show ((50 : ℤ) : ℚ) = 50 by norm_num, roundToNearestSensible_fifty]
    · by_cases h3 : x < 100
      · -- Band [50, 100): the output is 5k with 10 ≤ k ≤ 20.
        have hf : roundToNearestSensible x = (jsRound (x / 5) : ℚ) * 5 := by
          rw [roundToNearestSensible, if_neg h1, if_neg h2, if_pos h3]
        set k := jsRound (x / 5) with hk
        have hk10 : (10 : ℤ) ≤ k := le_jsRound (by push_cast; linarith [not_lt.mp h2])
        have hk20 : k ≤ 20 := by
          have := jsRound_lt (show x / 5 + 1/2 < ((21 : ℤ) : ℚ) by push_cast; linarith)
          omega
        rw [hf]
        by_cases hk' : k < 20
        · have hc10 : (10 : ℚ) ≤ (k : ℚ) := by exact_mod_cast hk10
          have hc20 : (k : ℚ) < 20 := by exact_mod_cast hk'
          rw [roundToNearestSensible, if_neg (by push_cast; intro hcon; linarith),
            if_neg (by push_cast; intro hcon; linarith), if_pos (by push_cast; linarith),
            show (k : ℚ) * 5 / 5 = (k : ℚ) by ring, jsRound_intCast]
        · have hk20' : k = 20 := by omega
          rw [hk20', show ((20 : ℤ) : ℚ) * 5 = 100 by norm_num,
            roundToNearestSensible_hundred]
      · by_cases h4 : x < 500
        · -- Band [100, 500): the output is 10k with 10 ≤ k ≤ 50.
          have hf : roundToNearestSensible x = (jsRound (x / 10) : ℚ) * 10 := by
            rw [roundToNearestSensible, if_neg h1, if_neg h2, if_neg h3, if_pos h4]
          set k := jsRound (x / 10) with hk
          have hk10 : (10 : ℤ) ≤ k := le_jsRound (by push_cast; linarith [not_lt.mp h3])
          have hk50 : k ≤ 50 := by
            have := jsRound_lt (show x / 10 + 1/2 < ((51 : ℤ) : ℚ) by push_cast; linarith)
            omega
          rw [hf]
          by_cases hk' : k < 50
          · have hc10 : (10 : ℚ) ≤ (k : ℚ) := by exact_mod_cast hk10
            have hc50 : (k : ℚ) < 50 := by exact_mod_cast hk'
            rw [roundToNearestSensible, if_neg (by push_cast; intro hcon; linarith),
              if_neg (by push_cast; intro hcon; linarith),
              if_neg (by push_cast; intro hcon; linarith), if_pos (by push_cast; linarith),
              show (k : ℚ) * 10 / 10 = (k : ℚ) by ring, jsRound_intCast]
          · have hk50' : k = 50 := by omega
            rw [hk50', show ((50 : ℤ) : ℚ) * 10 = 500 by norm_num,
              roundToNearestSensible_fivehundred]
        · -- Band ≥ 500: the output is 25k with 20 ≤ k.
          have hf : roundToNearestSensible x = (jsRound (x / 25) : ℚ) * 25 := by
            rw [roundToNearestSensible, if_neg h1, if_neg h2, if_neg h3, if_neg h4]
          set k := jsRound (x / 25) with hk
          have hk20 : (20 : ℤ) ≤ k := le_jsRound (by push_cast; linarith [not_lt.mp h4])
          have hc20 : (20 : ℚ) ≤ (k : ℚ) := by exact_mod_cast hk20
          rw [hf, roundToNearestSensible, if_neg (by push_cast; intro hcon; linarith),
            if_neg (by push_cast; intro hcon; linarith),
            if_neg (by push_cast; intro hcon; linarith),
            if_neg (by push_cast; intro hcon; linarith),
            show (k : ℚ) * 25 / 25 = (k : ℚ) by ring, jsRound_intCast]

/-- **C7 witness**: the idempotence law applied at the concrete input 7.3. -/
theorem c7_idempotent_witness :
    (0 : ℚ) ≤ 7.3 ∧
    roundToNearestSensible (roundToNearestSensible 7.3) = roundToNearestSensible 7.3 :=
  ⟨by norm_num, c7_roundToNearestSensible_idempotent.1 7.3 (by norm_num)⟩

/-! ## C4 -/

theorem jsRound_mono {a b : ℚ} (h : a ≤ b) : jsRound a ≤ jsRound b := by
  rw [jsRound_eq, jsRound_eq]
  exact Int.floor_mono (by linarith)

theorem f_eq1 {x : ℚ} (h : x < 10) :
    roundToNearestSensible x = (jsRound (x * 2) : ℚ) / 2 := by
  rw [roundToNearestSensible, if_pos h]

theorem f_eq2 {x : ℚ} (h1 : ¬ x < 10) (h2 : x < 50) :
    roundToNearestSensible x = (jsRound x : ℚ) := by
  rw [roundToNearestSensible, if_neg h1, if_pos h2]

theorem f_eq3 {x : ℚ} (h1 : ¬ x < 10) (h2 : ¬ x < 50) (h3 : x < 100) :
    roundToNearestSensible x = (jsRound (x / 5) : ℚ) * 5 := by
  rw [roundToNearestSensible, if_neg h1, if_neg h2, if_pos h3]

theorem f_eq4 {x : ℚ} (h1 : ¬ x < 10) (h2 : ¬ x < 50) (h3 : ¬ x < 100) (h4 : x < 500) :
    roundToNearestSensible x = (jsRound (x / 10) : ℚ) * 10 := by
  rw [roundToNearestSensible, if_neg h1, if_neg h2, if_neg h3, if_pos h4]

theorem f_eq5 {x : ℚ} (h1 : ¬ x < 10) (h2 : ¬ x < 50) (h3 : ¬ x < 100) (h4 : ¬ x < 500) :
    roundToNearestSensible x = (jsRound (x / 25) : ℚ) * 25 := by
  rw [roundToNearestSensible, if_neg h1, if_neg h2, if_neg h3, if_neg h4]

/-- Under the 10 boundary, the rounded price stays at most 10. -/
theorem f_le_ten {x : ℚ} (h : x < 10) : roundToNearestSensible x ≤ 10 := by
  rw [f_eq1 h]
  have hlt : jsRound (x * 2) < 21 := jsRound_lt (by push_cast; linarith)
  have hc : (jsRound (x * 2) : ℚ) ≤ 20 := by exact_mod_cast (by omega : jsRound (x * 2) ≤ 20)
  linarith

/-- Under the 50 boundary, the rounded price stays at most 50. -/
theorem f_le_fifty {x : ℚ} (h : x < 50) : roundToNearestSensible x ≤ 50 := by
  by_cases h1 : x < 10
  · linarith [f_le_ten h1]
  · rw [f_eq2 h1 h]
    have hlt : jsRound x < 51 := jsRound_lt (by push_cast; linarith)
    exact_mod_cast (by omega : jsRound x ≤ 50)

/-- Under the 100 boundary, the rounded price stays at most 100. -/
theorem f_le_hundred {x : ℚ} (h : x < 100) : roundToNearestSensible x ≤ 100 := by
  by_cases h2 : x < 50
  · linarith [f_le_fifty h2]
  · rw [f_eq3 (by intro hc; exact h2 (by linarith)) h2 h]
    have hlt : jsRound (x / 5) < 21 := jsRound_lt (by push_cast; linarith)
    have hc : (jsRound (x / 5) : ℚ) ≤ 20 := by exact_mod_cast (by omega : jsRound (x / 5) ≤ 20)
    linarith

/-- Under the 500 boundary, the rounded price stays at most 500. -/
theorem f_le_fivehundred {x : ℚ} (h : x < 500) : roundToNearestSensible x ≤ 500 := by
  by_cases h3 : x < 100
  · linarith [f_le_hundred h3]
  · rw [f_eq4 (by intro hc; exact h3 (by linarith)) (by intro hc; exact h3 (by linarith)) h3 h]
    have hlt : jsRound (x / 10) < 51 := jsRound_lt (by push_cast; linarith)
    have hc : (jsRound (x / 10) : ℚ) ≤ 50 :=
      by exact_mod_cast (by omega : jsRound (x / 10) ≤ 50)
    linarith

/-- From the 500 boundary up, the rounded price stays at least 500. -/
theorem f_ge_fivehundred {x : ℚ} (h : 500 ≤ x) : 500 ≤ roundToNearestSensible x := by
  rw [f_eq5 (by intro hc; linarith) (by intro hc; linarith) (by intro hc; linarith)
    (by intro hc; linarith)]
  have hge : (20 : ℤ) ≤ jsRound (x / 25) := le_jsRound (by push_cast; linarith)
  have hc : (20 : ℚ) ≤ (jsRound (x / 25) : ℚ) := by exact_mod_cast hge
  linarith

/-- From the 100 boundary up, the rounded price stays at least 100. -/
theorem f_ge_hundred {x : ℚ} (h : 100 ≤ x) : 100 ≤ roundToNearestSensible x := by
  by_cases h4 : x < 500
  · rw [f_eq4 (by intro hc; linarith) (by intro hc; linarith) (by intro hc; linarith) h4]
    have hge : (10 : ℤ) ≤ jsRound (x / 10) := le_jsRound (by push_cast; linarith)
    have hc : (10 : ℚ) ≤ (jsRound (x / 10) : ℚ) := by exact_mod_cast hge
    linarith
  · linarith [f_ge_fivehundred (not_lt.mp h4)]

/-- From the 50 boundary up, the rounded price stays at least 50. -/
theorem f_ge_fifty {x : ℚ} (h : 50 ≤ x) : 50 ≤ roundToNearestSensible x := by
  by_cases h3 : x < 100
  · rw [f_eq3 (by intro hc; linarith) (by intro hc; linarith) h3]
    have hge : (10 : ℤ) ≤ jsRound (x / 5) := le_jsRound (by push_cast; linarith)
    have hc : (10 : ℚ) ≤ (jsRound (x / 5) : ℚ) := by exact_mod_cast hge
    linarith
  · linarith [f_ge_hundred (by linarith [not_lt.mp h3])]

/-- From the 10 boundary up, the rounded price stays at least 10. -/
theorem f_ge_ten {x : ℚ} (h : 10 ≤ x) : 10 ≤ roundToNearestSensible x := by
  by_cases h2 : x < 50
  · rw [f_eq2 (by intro hc; linarith) h2]
    exact_mod_cast le_jsRound (by push_cast; linarith)
  · linarith [f_ge_fifty (not_lt.mp h2)]

/-- The sensible-rounding bands are monotone non-decreasing as a whole. -/
theorem roundToNearestSensible_mono {a b : ℚ} (hab : a ≤ b) :
    roundToNearestSensible a ≤ roundToNearestSensible b := by
  by_cases ha1 : a < 10
  · by_cases hb1 : b < 10
    · rw [f_eq1 ha1, f_eq1 hb1]
      have hc : (jsRound (a * 2) : ℚ) ≤ (jsRound (b * 2) : ℚ) :=
        by exact_mod_cast jsRound_mono (by linarith : a * 2 ≤ b * 2)
      linarith
    · exact le_trans (f_le_ten ha1) (f_ge_ten (not_lt.mp hb1))
  · by_cases ha2 : a < 50
    · by_cases hb2 : b < 50
      · have hb1 : ¬ b < 10 := fun hc => ha1 (by linarith)
        rw [f_eq2 ha1 ha2, f_eq2 hb1 hb2]
        exact_mod_cast jsRound_mono hab
      · exact le_trans (f_le_fifty ha2) (f_ge_fifty (not_lt.mp hb2))
    · by_cases ha3 : a < 100
      · by_cases hb3 : b < 100
        · have hb1 : ¬ b < 10 := fun hc => ha1 (by linarith)
          have hb2 : ¬ b < 50 := fun hc => ha2 (by linarith)
          rw [f_eq3 ha1 ha2 ha3, f_eq3 hb1 hb2 hb3]
          have hc : (jsRound (a / 5) : ℚ) ≤ (jsRound (b / 5) : ℚ) :=
            by exact_mod_cast jsRound_mono (by linarith : a / 5 ≤ b / 5)
          linarith
        · exact le_trans (f_le_hundred ha3) (f_ge_hundred (not_lt.mp hb3))
      · by_cases ha4 : a < 500
        · by_cases hb4 : b < 500
          · have hb1 : ¬ b < 10 := fun hc => ha1 (by linarith)
            have hb2 : ¬ b < 50 := fun hc => ha2 (by linarith)
            have hb3 : ¬ b < 100 := fun hc => ha3 (by linarith)
            rw [f_eq4 ha1 ha2 ha3 ha4, f_eq4 hb1 hb2 hb3 hb4]
            have hc : (jsRound (a / 10) : ℚ) ≤ (jsRound (b / 10) : ℚ) :=
              by exact_mod_cast jsRound_mono (by linarith : a / 10 ≤ b / 10)
            linarith
          · exact le_trans (f_le_fivehundred ha4) (f_ge_fivehundred (not_lt.mp hb4))
        · have hb1 : ¬ b < 10 := fun hc => ha1 (by linarith)
          have hb2 : ¬ b < 50 := fun hc => ha2 (by linarith)
          have hb3 : ¬ b < 100 := fun hc => ha3 (by linarith)
          have hb4 : ¬ b < 500 := fun hc => ha4 (by linarith)
          rw [f_eq5 ha1 ha2 ha3 ha4, f_eq5 hb1 hb2 hb3 hb4]
          have hc : (jsRound (a / 25) : ℚ) ≤ (jsRound (b / 25) : ℚ) :=
            by exact_mod_cast jsRound_mono (by linarith : a / 25 ≤ b / 25)
          linarith

/-- **C4**: whenever `calculateSuggestedPrice` returns non-null prices, they
are ordered `quickSalePrice ≤ suggestedPrice ≤ premiumPrice`. -/
theorem c4_price_point_ordering (s : MarketSnapshot) (q a p : ℚ)
    (hq : (calculateSuggestedPrice s).quickSalePrice = some q)
    (ha : (calculateSuggestedPrice s).suggestedPrice = some a)
    (hp : (calculateSuggestedPrice s).premiumPrice = some p) :
    q ≤ a ∧ a ≤ p := by
  by_cases hpp : s.avgSoldPrice > 0 ∨ s.avgActivePrice > 0
  · obtain ⟨b, m, hbpos, he⟩ := calc_pricing_eq s hpp
    rw [he] at hq ha hp
    have hq' : q = roundToNearestSensible (b * marketAdjustment s * 0.85) :=
      (Option.some.inj hq).symm
    have ha' : a = roundToNearestSensible (b * marketAdjustment s) :=
      (Option.some.inj ha).symm
    have hp' : p = roundToNearestSensible (b * marketAdjustment s * 1.15) :=
      (Option.some.inj hp).symm
    have hadj : 0 < b * marketAdjustment s := mul_pos hbpos (marketAdjustment_pos s)
    constructor
    · rw [hq', ha']
      exact roundToNearestSensible_mono (by linarith)
    · rw [ha', hp']
      exact roundToNearestSensible_mono (by linarith)
  · rw [calc_terminal_eq s (fun hgt => hpp (Or.inl hgt)) (fun hgt => hpp (Or.inr hgt))] at hq
    exact absurd hq (by simp)

/-- **C4 witness**: the ordering applied on the example snapshot, where the
three price points are 75, 85 and 100. -/
theorem c4_price_point_ordering_witness :
    (calculateSuggestedPrice ⟨10, 40, 100, 80, (0, 0), "exact-match"⟩).quickSalePrice
      = some 75 ∧
    (calculateSuggestedPrice ⟨10, 40, 100, 80, (0, 0), "exact-match"⟩).suggestedPrice
      = some 85 ∧
    (calculateSuggestedPrice ⟨10, 40, 100, 80, (0, 0), "exact-match"⟩).premiumPrice
      = some 100 ∧
    ((75 : ℚ) ≤ 85 ∧ (85 : ℚ) ≤ 100) :=
  ⟨by with_unfolding_all decide, by with_unfolding_all decide, by with_unfolding_all decide,
   c4_price_point_ordering ⟨10, 40, 100, 80, (0, 0), "exact-match"⟩ 75 85 100
     (by with_unfolding_all decide) (by with_unfolding_all decide)
     (by with_unfolding_all decide)⟩

/-! ## C10 -/

/-- **C10**: the insufficient-data record carries no `priceBreakdown`, while
every pricing-path result carries one, with the contribution, adjustment and
competition-ratio fields. -/
theorem c10_priceBreakdown_presence :
    (∀ s : MarketSnapshot, ¬ s.avgSoldPrice > 0 → ¬ s.avgActivePrice > 0 →
      (calculateSuggestedPrice s).priceBreakdown = none) ∧
    (∀ s : MarketSnapshot, s.avgSoldPrice > 0 ∨ s.avgActivePrice > 0 →
      ∃ b : PriceBreakdown, (calculateSuggestedPrice s).priceBreakdown = some b ∧
        b.avgSoldContribution = round2 (s.avgSoldPrice * 0.7) ∧
        b.avgActiveContribution = round2 (s.avgActivePrice * 0.3) ∧
        b.marketAdjustment = marketAdjustment s ∧
        b.competitionRatio = round2 (competitionRatio s)) := by
  constructor
  · intro s h1 h2
    rw [calc_terminal_eq s h1 h2]
  · intro s h
    obtain ⟨b, m, _, he⟩ := calc_pricing_eq s h
    exact ⟨_, by rw [he]; exact ⟨rfl, rfl, rfl, rfl, rfl⟩⟩

/-- **C10 witness**: both parts evaluated on concrete snapshots. -/
theorem c10_priceBreakdown_presence_witness :
    (calculateSuggestedPrice ⟨0, 0, 0, 0, (0, 0), "estimated"⟩).priceBreakdown = none ∧
    ∃ b : PriceBreakdown,
      (calculateSuggestedPrice ⟨10, 40, 100, 80, (0, 0), "exact-match"⟩).priceBreakdown
        = some b ∧
      b.avgSoldContribution = round2 ((100 : ℚ) * 0.7) ∧
      b.avgActiveContribution = round2 ((80 : ℚ) * 0.3) ∧
      b.marketAdjustment = marketAdjustment ⟨10, 40, 100, 80, (0, 0), "exact-match"⟩ ∧
      b.competitionRatio = round2 (competitionRatio ⟨10, 40, 100, 80, (0, 0), "exact-match"⟩) :=
  ⟨c10_priceBreakdown_presence.1 ⟨0, 0, 0, 0, (0, 0), "estimated"⟩
      (by norm_num) (by norm_num),
   c10_priceBreakdown_presence.2 ⟨10, 40, 100, 80, (0, 0), "exact-match"⟩
      (Or.inl (by norm_num))⟩

/-! ## C9 -/

theorem insertKey_mem (acc : List ℤ) (v x : ℤ) :
    x ∈ insertKey acc v ↔ x ∈ acc ∨ x = v := by
  rw [insertKey]
  split_ifs with h
  · constructor
    · exact Or.inl
    · rintro (hx | rfl)
      · exact hx
      · exact h
  · simp [List.mem_append]

theorem insertKey_nodup {acc : List ℤ} (v : ℤ) (h : acc.Nodup) :
    (insertKey acc v).Nodup := by
  rw [insertKey]
  split_ifs with hmem
  · exact h
  · simp [List.nodup_append, h, hmem]

theorem foldl_insertKey_mem (l : List ℤ) :
    ∀ (acc : List ℤ) (x : ℤ), x ∈ l.foldl insertKey acc ↔ x ∈ acc ∨ x ∈ l := by
  induction l with
  | nil => simp
  | cons a t ih =>
    intro acc x
    rw [List.foldl_cons, ih, insertKey_mem, List.mem_cons]
    tauto

theorem foldl_insertKey_nodup (l : List ℤ) :
    ∀ acc : List ℤ, acc.Nodup → (l.foldl insertKey acc).Nodup := by
  induction l with
  | nil => exact fun acc h => h
  | cons a t ih => exact fun acc h => ih _ (insertKey_nodup a h)

theorem firstSeen_mem (l : List ℤ) (x : ℤ) : x ∈ firstSeen l ↔ x ∈ l := by
  rw [firstSeen, foldl_insertKey_mem]
  simp

theorem firstSeen_nodup (l : List ℤ) : (firstSeen l).Nodup :=
  foldl_insertKey_nodup l [] List.nodup_nil

/-- When every key is an array-index key, the `Object.entries` order is simply
the ascending sort of the distinct keys. -/
theorem jsObjectKeys_all_index {rounded : List ℤ}
    (h : ∀ v ∈ rounded, isArrayIndexKey v) :
    jsObjectKeys rounded = List.insertionSort (· ≤ ·) (firstSeen rounded) := by
  rw [jsObjectKeys]
  have h1 : (firstSeen rounded).filter (fun v => decide (isArrayIndexKey v))
      = firstSeen rounded :=
    List.filter_eq_self.mpr fun v hv =>
      decide_eq_true (h v ((firstSeen_mem rounded v).mp hv))
  have h2 : (firstSeen rounded).filter (fun v => ! decide (isArrayIndexKey v)) = [] := by
    rw [List.filter_eq_nil_iff]
    intro v hv
    simp [h v ((firstSeen_mem rounded v).mp hv)]
  rw [h1, h2, List.append_nil]

theorem orderedInsert_head (a : ℤ × ℕ) (s : List (ℤ × ℕ)) :
    (List.orderedInsert byCountDesc a s).head? =
      match s.head? with
      | none => some a
      | some b => if b.2 ≤ a.2 then some a else some b := by
  cases s with
  | nil => rfl
  | cons b t =>
    rw [List.orderedInsert]
    by_cases h : b.2 ≤ a.2
    · rw [if_pos (show byCountDesc a b from h)]
      simp [h]
    · rw [if_neg (show ¬ byCountDesc a b from h)]
      simp [h]

/-- The head of the stable descending-by-count sort is the first entry of
maximal count. -/
theorem insertionSort_byCountDesc_head (l : List (ℤ × ℕ)) :
    (List.insertionSort byCountDesc l).head? = firstMax l := by
  induction l with
  | nil => rfl
  | cons a t ih =>
    rw [List.insertionSort, orderedInsert_head, ih]
    cases h : firstMax t with
    | none => simp [firstMax, h]
    | some b => simp [firstMax, h]

theorem firstMax_isSome (l : List (ℤ × ℕ)) (h : l ≠ []) : ∃ x, firstMax l = some x := by
  cases l with
  | nil => exact absurd rfl h
  | cons a t =>
    cases h' : firstMax t with
    | none => exact ⟨a, by simp [firstMax, h']⟩
    | some b =>
      by_cases hc : b.2 ≤ a.2
      · exact ⟨a, by simp [firstMax, h', hc]⟩
      · exact ⟨b, by simp [firstMax, h', hc]⟩

theorem firstMax_mem : ∀ {l : List (ℤ × ℕ)} {x : ℤ × ℕ}, firstMax l = some x → x ∈ l := by
  intro l
  induction l with
  | nil => intro x h; exact absurd h (by simp [firstMax])
  | cons a t ih =>
    intro x h
    cases h' : firstMax t with
    | none =>
      simp only [firstMax, h'] at h
      exact (Option.some.inj h) ▸ List.mem_cons_self a t
    | some b =>
      simp only [firstMax, h'] at h
      split_ifs at h with hc
      · exact (Option.some.inj h) ▸ List.mem_cons_self a t
      · exact List.mem_cons_of_mem a ((Option.some.inj h) ▸ ih h')

theorem firstMax_count_max :
    ∀ {l : List (ℤ × ℕ)} {x : ℤ × ℕ}, firstMax l = some x →
      ∀ y ∈ l, y.2 ≤ x.2 := by
  intro l
  induction l with
  | nil => intro x h; exact absurd h (by simp [firstMax])
  | cons a t ih =>
    intro x h y hy
    cases h' : firstMax t with
    | none =>
      have ht : t = [] := by
        cases t with
        | nil => rfl
        | cons c u => obtain ⟨z, hz⟩ := firstMax_isSome (c :: u) (by simp); rw [hz] at h'; cases h'
      subst ht
      simp only [firstMax, h'] at h
      rcases List.mem_cons.mp hy with rfl | hy'
      · rw [← Option.some.inj h]
      · exact absurd hy' (List.not_mem_nil y)
    | some b =>
      simp only [firstMax, h'] at h
      rcases List.mem_cons.mp hy with rfl | hy'
      · split_ifs at h with hc
        · rw [← Option.some.inj h]
        · rw [← Option.some.inj h]; omega
      · have hyb := ih h' y hy'
        split_ifs at h with hc
        · rw [← Option.some.inj h]; omega
        · rw [← Option.some.inj h]; omega

/-- Stability: among entries of maximal count, `firstMax` picks the earliest;
with keys strictly ascending, that is the smallest key. -/
theorem firstMax_first_among_ties :
    ∀ {l : List (ℤ × ℕ)} {x : ℤ × ℕ},
      l.Pairwise (fun u v => u.1 < v.1) → firstMax l = some x →
      ∀ y ∈ l, y.2 = x.2 → x.1 ≤ y.1 := by
  intro l
  induction l with
  | nil => intro x _ h; exact absurd h (by simp [firstMax])
  | cons a t ih =>
    intro x hpw h y hy hcnt
    have hpa : ∀ v ∈ t, a.1 < v.1 := (List.pairwise_cons.mp hpw).1
    have hpt : t.Pairwise (fun u v => u.1 < v.1) := (List.pairwise_cons.mp hpw).2
    cases h' : firstMax t with
    | none =>
      have ht : t = [] := by
        cases t with
        | nil => rfl
        | cons c u => obtain ⟨z, hz⟩ := firstMax_isSome (c :: u) (by simp); rw [hz] at h'; cases h'
      subst ht
      simp only [firstMax, h'] at h
      rcases List.mem_cons.mp hy with rfl | hy'
      · rw [← Option.some.inj h]
      · exact absurd hy' (List.not_mem_nil y)
    | some b =>
      simp only [firstMax, h'] at h
      split_ifs at h with hc
      · -- the head wins (ties included): x = a
        rcases List.mem_cons.mp hy with rfl | hy'
        · rw [← Option.some.inj h]
        · rw [← Option.some.inj h]; exact le_of_lt (hpa y hy')
      · -- x = b comes from the tail, and the head has strictly smaller count
        rcases List.mem_cons.mp hy with rfl | hy'
        · exfalso
          have hxb : x = b := (Option.some.inj h).symm
          rw [hxb] at hcnt
          omega
        · have hbx : b = x := Option.some.inj h
          rw [← hbx]
          exact ih hpt h' y hy' (by rw [hcnt, ← hbx])

/-- On a non-empty input, the reported mode is the `jsMode` block. -/
theorem analyze_mode (ps : List ℚ) (h : ps ≠ []) :
    (analyzePriceDistribution ps).mode = jsMode ps := by
  rw [analyzePriceDistribution, if_neg (fun hc => h (List.length_eq_zero.mp hc))]

/-- **C9, counterexample**: on `[2, 2, 1, 1]` the rounded values 2 and 1 tie
with frequency 2 each and 2 is encountered first, yet the returned mode is 1:
the `frequency` object enumerates integer keys in ascending numeric order, not
insertion order, so the stable sort resolves the tie toward the smaller value,
not the first-encountered one. -/
theorem c9_counterexample :
    (analyzePriceDistribution [2, 2, 1, 1]).mode = 1 ∧
    (([2, 2, 1, 1] : List ℚ).map jsRound).count 2
      = (([2, 2, 1, 1] : List ℚ).map jsRound).count 1 ∧
    ([2, 2, 1, 1] : List ℚ).head? = some 2 ∧
    (1 : ℚ) ≠ 2 := by
  refine ⟨?_, by with_unfolding_all decide, by with_unfolding_all decide, by norm_num⟩
  rw [analyze_mode _ (by simp)]
  with_unfolding_all decide

/-- **C9 (amended)**: for every non-empty price list whose rounded values are
all array-index keys (non-negative and below 2³² − 1 — in particular any list
of ordinary non-negative prices), the mode is a most frequent rounded value,
and among the rounded values tied for the highest frequency it is the
*smallest*, not the first-encountered one: `Object.entries` enumerates
integer keys in ascending numeric order and the stable sort preserves that
order among equal counts. -/
theorem c9_mode_smallest_most_frequent (ps : List ℚ) (hne : ps ≠ [])
    (hkeys : ∀ v ∈ ps.map jsRound, isArrayIndexKey v) :
    ∃ v : ℤ, (analyzePriceDistribution ps).mode = (v : ℚ) ∧
      v ∈ ps.map jsRound ∧
      (∀ w ∈ ps.map jsRound, (ps.map jsRound).count w ≤ (ps.map jsRound).count v) ∧
      (∀ w ∈ ps.map jsRound,
        (ps.map jsRound).count w = (ps.map jsRound).count v → v ≤ w) := by
  have hks : jsObjectKeys (ps.map jsRound)
      = List.insertionSort (· ≤ ·) (firstSeen (ps.map jsRound)) :=
    jsObjectKeys_all_index hkeys
  have hmemk : ∀ x : ℤ, x ∈ jsObjectKeys (ps.map jsRound) ↔ x ∈ ps.map jsRound := by
    intro x
    rw [hks, (List.perm_insertionSort _ _).mem_iff, firstSeen_mem]
  have hnodup : (jsObjectKeys (ps.map jsRound)).Nodup := by
    rw [hks]
    exact (List.perm_insertionSort _ _).nodup_iff.mpr (firstSeen_nodup _)
  have hsorted : (jsObjectKeys (ps.map jsRound)).Sorted (· ≤ ·) := by
    rw [hks]
    exact List.sorted_insertionSort _ _
  have hlt : (jsObjectKeys (ps.map jsRound)).Sorted (· < ·) := hsorted.lt_of_le hnodup
  have hentries : modeEntries ps
      = (jsObjectKeys (ps.map jsRound)).map
          (fun v => (v, (ps.map jsRound).count v)) := by
    rw [modeEntries]
  have hpw : (modeEntries ps).Pairwise (fun u v => u.1 < v.1) := by
    rw [hentries]
    exact (List.pairwise_map).mpr (hlt.imp fun h => h)
  have hne' : modeEntries ps ≠ [] := by
    rw [hentries]
    intro hemp
    have hmapnil := List.map_eq_nil_iff.mp hemp
    obtain ⟨x, hx⟩ := List.exists_mem_of_ne_nil (ps.map jsRound)
      (by simpa [List.map_eq_nil_iff] using hne)
    exact absurd ((hmemk x).mpr hx) (by rw [hmapnil]; exact List.not_mem_nil x)
  obtain ⟨e, he⟩ := firstMax_isSome _ hne'
  have hmode : jsMode ps = (e.1 : ℚ) := by
    rw [jsMode, insertionSort_byCountDesc_head, he]
  have hemem : e ∈ modeEntries ps := firstMax_mem he
  have heshape : e.1 ∈ ps.map jsRound ∧ e.2 = (ps.map jsRound).count e.1 := by
    rw [hentries] at hemem
    obtain ⟨v, hv, hmap⟩ := List.mem_map.mp hemem
    constructor
    · rw [← hmap]
      exact (hmemk v).mp hv
    · rw [← hmap]
  refine ⟨e.1, by rw [analyze_mode ps hne, hmode], heshape.1, ?_, ?_⟩
  · intro w hw
    have hwk : (w, (ps.map jsRound).count w) ∈ modeEntries ps := by
      rw [hentries]
      exact List.mem_map_of_mem _ ((hmemk w).mpr hw)
    have hle := firstMax_count_max he _ hwk
    calc (ps.map jsRound).count w = (w, (ps.map jsRound).count w).2 := rfl
      _ ≤ e.2 := hle
      _ = (ps.map jsRound).count e.1 := heshape.2
  · intro w hw hcnt
    have hwk : (w, (ps.map jsRound).count w) ∈ modeEntries ps := by
      rw [hentries]
      exact List.mem_map_of_mem _ ((hmemk w).mpr hw)
    exact firstMax_first_among_ties hpw he _ hwk (by rw [← heshape.2] at hcnt; exact hcnt)

/-- **C9 witness**: the amended mode characterization applied on
`[2, 2, 1, 1]`. -/
theorem c9_mode_witness :
    (([2, 2, 1, 1] : List ℚ) ≠ []) ∧
    (∀ v ∈ ([2, 2, 1, 1] : List ℚ).map jsRound, isArrayIndexKey v) ∧
    ∃ v : ℤ, (analyzePriceDistribution [2, 2, 1, 1]).mode = (v : ℚ) ∧
      v ∈ ([2, 2, 1, 1] : List ℚ).map jsRound ∧
      (∀ w ∈ ([2, 2, 1, 1] : List ℚ).map jsRound,
        (([2, 2, 1, 1] : List ℚ).map jsRound).count w
          ≤ (([2, 2, 1, 1] : List ℚ).map jsRound).count v) ∧
      (∀ w ∈ ([2, 2, 1, 1] : List ℚ).map jsRound,
        (([2, 2, 1, 1] : List ℚ).map jsRound).count w
          = (([2, 2, 1, 1] : List ℚ).map jsRound).count v → v ≤ w) :=
  ⟨by simp, by with_unfolding_all decide,
   c9_mode_smallest_most_frequent [2, 2, 1, 1] (by simp) (by with_unfolding_all decide)⟩
